import Mathlib

/-!
Verification of the Ternary Sentiment Decider from `src/sentiment_model.py`.

The core of the repository is `SentimentAnalyzer`: it post-processes the raw
(label, probability) pairs of a binary classifier into a three-way sentiment
decision (positive / negative / neutral) using two configurable thresholds,
and exposes single (`predict`) and batch (`batch_predict`) entry points with
input validation.

Embedding choices:
* probabilities (Python `float`) are modelled as `ℚ`; the decision rule only
  compares and selects probabilities, so its branching structure is
  order-theoretic and unaffected by the numeric representation;
* the three Persian label strings `"مثبت"` / `"منفی"` / `"خنثی"` of the source
  are modelled as the enum `Category` (POSITIVE / NEGATIVE / NEUTRAL), with
  `categoryPersian` recording the concrete strings;
* the classifier pipeline is an opaque parameter `classifier : String → List ScoreEntry`;
  for a batch call the pipeline returns one output per input text in input
  order, i.e. `batch.map classifier`;
* Python exceptions (`ValueError`) become `Except PredictError`; the two raise
  sites of the source are the two constructors;
* wall-clock latency measurement is real time and is not modelled; the
  `latency_ms` field of `SentimentResult` is dropped, keeping (label, score).
-/

namespace SentimentSpec

/-- The three sentiment categories produced by the decider.  The source
represents them as Persian strings (see `categoryPersian`). -/
inductive Category where
  | POSITIVE
  | NEGATIVE
  | NEUTRAL
deriving DecidableEq, Repr

/-- The localized strings the source actually returns for each category. -/
def categoryPersian : Category → String
  | Category.POSITIVE => "مثبت"
  | Category.NEGATIVE => "منفی"
  | Category.NEUTRAL => "خنثی"

/-- One `{label, score}` dict of the classifier output. -/
structure ScoreEntry where
  label : String
  score : ℚ
deriving DecidableEq, Repr

/-- `leadsList needle hay` is true when `needle` occurs at the very front of
`hay` (character-by-character). -/
def leadsList : List Char → List Char → Bool
  | [], _ => true
  | _ :: _, [] => false
  | a :: as, b :: bs => a == b && leadsList as bs

/-- `occursInList needle hay` is true when `needle` occurs as a contiguous
run inside `hay`. -/
def occursInList (needle : List Char) : List Char → Bool
  | [] => leadsList needle []
  | c :: rest => leadsList needle (c :: rest) || occursInList needle rest

/-- Python's `needle in hay` substring test. -/
def containsSub (hay needle : String) : Bool :=
  occursInList needle.toList hay.toList

/-- Python's `str.upper()` (ASCII case mapping, which covers every label the
classifier emits). -/
def upperStr (s : String) : String :=
  String.mk (s.toList.map Char.toUpper)

/-- `"HAPPY" in upper or "POS" in upper` from the source, on an already
uppercased label. -/
def isPositiveLabel (upper : String) : Bool :=
  containsSub upper "HAPPY" || containsSub upper "POS"

/-- `"SAD" in upper or "NEG" in upper` from the source, on an already
uppercased label. -/
def isNegativeLabel (upper : String) : Bool :=
  containsSub upper "SAD" || containsSub upper "NEG"

/-- `SentimentAnalyzer._map_label_to_persian` (src/sentiment_model.py:70-78):
map a raw model label to a category by case-insensitive keyword matching. -/
def mapLabelToCategory (label : String) : Category :=
  let upper := upperStr label
  if isPositiveLabel upper then Category.POSITIVE
  else if isNegativeLabel upper then Category.NEGATIVE
  else Category.NEUTRAL

/-- Python's `max(scores, key=lambda x: float(x["score"]))`: first entry of
maximal score (Python's `max` keeps the earliest maximum), `none` on the
empty list (where Python raises `ValueError`). -/
def maxByScore : List ScoreEntry → Option ScoreEntry
  | [] => none
  | e :: rest => some (rest.foldl (fun best x => if best.score < x.score then x else best) e)

/-- Lines 100-104 of src/sentiment_model.py: decide which of the first two
entries is the positive class by testing the first label against the positive
keywords, and return `(posProb, negProb)`. -/
def posNegProbs (s0 s1 : ScoreEntry) : ℚ × ℚ :=
  if isPositiveLabel (upperStr s0.label) then (s0.score, s1.score) else (s1.score, s0.score)

/-- `SentimentAnalyzer._derive_three_class` (src/sentiment_model.py:80-111):
convert classifier scores to a three-class decision.  `none` models the
`ValueError` Python's `max` raises on an empty sequence. -/
def deriveThreeClass (positiveThreshold negativeThreshold : ℚ)
    (scores : List ScoreEntry) : Option (Category × ℚ) :=
  if scores.length < 2 then
    match maxByScore scores with
    | none => none
    | some best => some (mapLabelToCategory best.label, best.score)
  else
    match scores with
    | [] => none
    | [_] => none
    | s0 :: s1 :: _ =>
      let pn := posNegProbs s0 s1
      let posProb := pn.1
      let negProb := pn.2
      if positiveThreshold ≤ posProb ∧ negProb ≤ posProb then
        some (Category.POSITIVE, posProb)
      else if negativeThreshold ≤ negProb ∧ posProb < negProb then
        some (Category.NEGATIVE, negProb)
      else
        some (Category.NEUTRAL, max posProb negProb)

/-- The two `ValueError` raise sites of the source. -/
inductive PredictError where
  /-- "متن ورودی نمی‌تواند خالی باشد." / "هیچ متن معتبری برای تحلیل ارسال نشده است.":
  empty / whitespace-only input. -/
  | invalidInput
  /-- the `ValueError` Python's `max` raises inside `_derive_three_class`
  when the classifier returned an empty score sequence. -/
  | emptyScores
deriving DecidableEq, Repr

/-- Python's `not text.strip()` truthiness test: every character of the text
is whitespace (an empty text included). -/
def stripEmpty (s : String) : Bool :=
  s.toList.all Char.isWhitespace

/-- `SentimentAnalyzer.predict` (src/sentiment_model.py:113-137) minus the
latency measurement: validate the input, run the classifier on the single
text and post-process its output with `deriveThreeClass`. -/
def predict (classifier : String → List ScoreEntry)
    (positiveThreshold negativeThreshold : ℚ) (text : String) :
    Except PredictError (Category × ℚ) :=
  if text = "" ∨ stripEmpty text then
    Except.error PredictError.invalidInput
  else
    match deriveThreeClass positiveThreshold negativeThreshold (classifier text) with
    | some r => Except.ok r
    | none => Except.error PredictError.emptyScores

/-- The list comprehension `[t for t in texts if t and t.strip()]`
(src/sentiment_model.py:155): drop empty and whitespace-only texts. -/
def cleanTexts (texts : List String) : List String :=
  texts.filter (fun t => !(t == "") && !(stripEmpty t))

/-- The chunking loop `for i in range(0, len(clean_texts), batch_size)`
with slices `clean_texts[i : i + batch_size]`: split a list into consecutive
chunks of at most `batchSize` elements.  A `batchSize` of zero makes Python's
`range` raise; here it returns `[]` and is excluded by hypothesis wherever it
matters. -/
def chunkList (batchSize : Nat) (l : List α) : List (List α) :=
  if h : l.length = 0 ∨ batchSize = 0 then []
  else l.take batchSize :: chunkList batchSize (l.drop batchSize)
termination_by l.length
decreasing_by
  push_neg at h
  simp only [List.length_drop]
  omega

/-- One iteration of the inner loop `for out in outputs` of `batch_predict`:
derive the three-class result for one classifier output, propagating the
derivation failure on an empty score list. -/
def deriveItem (positiveThreshold negativeThreshold : ℚ)
    (out : List ScoreEntry) : Except PredictError (Category × ℚ) :=
  match deriveThreeClass positiveThreshold negativeThreshold out with
  | some r => Except.ok r
  | none => Except.error PredictError.emptyScores

/-- The inner loop of `batch_predict` over one chunk's outputs, in order;
stops at the first failing item, as the exception would in the source. -/
def processOutputs (positiveThreshold negativeThreshold : ℚ) :
    List (List ScoreEntry) → Except PredictError (List (Category × ℚ))
  | [] => Except.ok []
  | out :: rest =>
    match deriveItem positiveThreshold negativeThreshold out with
    | Except.error e => Except.error e
    | Except.ok r =>
      match processOutputs positiveThreshold negativeThreshold rest with
      | Except.error e => Except.error e
      | Except.ok rs => Except.ok (r :: rs)

/-- The outer chunk loop of `batch_predict`: each chunk is sent to the
pipeline in one call (`self.pipeline(batch)`, one output per input text in
input order), and the per-item results are appended across chunks. -/
def processChunks (classifier : String → List ScoreEntry)
    (positiveThreshold negativeThreshold : ℚ) :
    List (List String) → Except PredictError (List (Category × ℚ))
  | [] => Except.ok []
  | batch :: rest =>
    match processOutputs positiveThreshold negativeThreshold (batch.map classifier) with
    | Except.error e => Except.error e
    | Except.ok rs =>
      match processChunks classifier positiveThreshold negativeThreshold rest with
      | Except.error e => Except.error e
      | Except.ok more => Except.ok (rs ++ more)

/-- `SentimentAnalyzer.batch_predict` (src/sentiment_model.py:139-181) minus
the latency measurement: filter the inputs, fail when nothing valid remains,
then process the filtered list chunk by chunk. -/
def batchPredict (classifier : String → List ScoreEntry)
    (positiveThreshold negativeThreshold : ℚ)
    (texts : List String) (batchSize : Nat) :
    Except PredictError (List (Category × ℚ)) :=
  if cleanTexts texts = [] then Except.error PredictError.invalidInput
  else
    processChunks classifier positiveThreshold negativeThreshold
      (chunkList batchSize (cleanTexts texts))

/-- Per-item sequential processing of a list of texts, ignoring chunking:
the reference point for the chunking-invariance claim. -/
def predictAll (classifier : String → List ScoreEntry)
    (positiveThreshold negativeThreshold : ℚ) :
    List String → Except PredictError (List (Category × ℚ))
  | [] => Except.ok []
  | t :: ts =>
    match deriveItem positiveThreshold negativeThreshold (classifier t) with
    | Except.error e => Except.error e
    | Except.ok r =>
      match predictAll classifier positiveThreshold negativeThreshold ts with
      | Except.error e => Except.error e
      | Except.ok rs => Except.ok (r :: rs)

/-- A concrete classifier stub (the distribution of a confident positive
review) used to instantiate the theorems at concrete inputs. -/
def sampleClassifier : String → List ScoreEntry :=
  fun _ => [⟨"HAPPY", 9/10⟩, ⟨"SAD", 1/10⟩]

/-! ### Helper lemmas -/

/-- Unfolding of `deriveThreeClass` on a list with at least two entries:
the threshold decision chain of src/sentiment_model.py:106-111. -/
theorem deriveThreeClass_cons_cons (pt nt : ℚ) (s0 s1 : ScoreEntry) (rest : List ScoreEntry) :
    deriveThreeClass pt nt (s0 :: s1 :: rest) =
      if pt ≤ (posNegProbs s0 s1).1 ∧ (posNegProbs s0 s1).2 ≤ (posNegProbs s0 s1).1 then
        some (Category.POSITIVE, (posNegProbs s0 s1).1)
      else if nt ≤ (posNegProbs s0 s1).2 ∧ (posNegProbs s0 s1).1 < (posNegProbs s0 s1).2 then
        some (Category.NEGATIVE, (posNegProbs s0 s1).2)
      else some (Category.NEUTRAL, max (posNegProbs s0 s1).1 (posNegProbs s0 s1).2) := by
  simp [deriveThreeClass]

/-- Unfolding of `deriveThreeClass` on a singleton list: the fallback path
of src/sentiment_model.py:89-92. -/
theorem deriveThreeClass_singleton (pt nt : ℚ) (e : ScoreEntry) :
    deriveThreeClass pt nt [e] = some (mapLabelToCategory e.label, e.score) := by
  simp [deriveThreeClass, maxByScore]

/-- `deriveThreeClass` produces a result on every non-empty score list. -/
theorem deriveThreeClass_isSome (pt nt : ℚ) (scores : List ScoreEntry) (h : scores ≠ []) :
    (deriveThreeClass pt nt scores).isSome = true := by
  match scores with
  | [] => exact absurd rfl h
  | [e] => rw [deriveThreeClass_singleton]; rfl
  | s0 :: s1 :: rest =>
    rw [deriveThreeClass_cons_cons]
    split_ifs <;> rfl

/-! ### Claim theorems -/

/-- C1: for every two-entry classifier output and thresholds in (0,1], if
`posProb ≥ positiveThreshold` and `posProb ≥ negProb` then the decision is
POSITIVE with confidence `posProb`; in particular an exact tie
`posProb = negProb = threshold` satisfies both conditions, so rule 1 fires
before the NEGATIVE rule is consulted. -/
theorem derive_positive_rule (pt nt : ℚ)
    (hpt : 0 < pt ∧ pt ≤ 1) (hnt : 0 < nt ∧ nt ≤ 1) (s0 s1 : ScoreEntry)
    (hthr : pt ≤ (posNegProbs s0 s1).1)
    (hge : (posNegProbs s0 s1).2 ≤ (posNegProbs s0 s1).1) :
    deriveThreeClass pt nt [s0, s1] = some (Category.POSITIVE, (posNegProbs s0 s1).1) := by
  rw [deriveThreeClass_cons_cons]
  exact if_pos ⟨hthr, hge⟩

/-- Witness for C1 at the exact tie `posProb = negProb = threshold = 1/2`:
both thresholds are in (0,1], the POSITIVE-rule hypotheses hold with
equality, and the result is POSITIVE with confidence 1/2. -/
theorem derive_positive_rule_witness :
    deriveThreeClass (1/2) (1/2) [⟨"HAPPY", 1/2⟩, ⟨"SAD", 1/2⟩] =
      some (Category.POSITIVE, 1/2) := by
  have hpn : posNegProbs ⟨"HAPPY", (1:ℚ)/2⟩ ⟨"SAD", (1:ℚ)/2⟩ = (1/2, 1/2) := by
    simp [posNegProbs, show isPositiveLabel (upperStr "HAPPY") = true from by decide]
  have h := derive_positive_rule (1/2) (1/2) ⟨by norm_num, by norm_num⟩ ⟨by norm_num, by norm_num⟩
    ⟨"HAPPY", 1/2⟩ ⟨"SAD", 1/2⟩ (by rw [hpn]) (by rw [hpn])
  rw [h, hpn]

/-- C2: for every two-entry classifier output, when the POSITIVE rule does
not fire, if `negProb ≥ negativeThreshold` and `negProb > posProb` then the
decision is NEGATIVE with confidence `negProb`. -/
theorem derive_negative_rule (pt nt : ℚ) (s0 s1 : ScoreEntry)
    (hnp : ¬(pt ≤ (posNegProbs s0 s1).1 ∧ (posNegProbs s0 s1).2 ≤ (posNegProbs s0 s1).1))
    (hthr : nt ≤ (posNegProbs s0 s1).2)
    (hgt : (posNegProbs s0 s1).1 < (posNegProbs s0 s1).2) :
    deriveThreeClass pt nt [s0, s1] = some (Category.NEGATIVE, (posNegProbs s0 s1).2) := by
  rw [deriveThreeClass_cons_cons, if_neg hnp]
  exact if_pos ⟨hthr, hgt⟩

/-- Witness for C2 at the spec's concrete scenario
`[("SAD", 0.8), ("HAPPY", 0.2)]` with the default thresholds 0.65:
the result is NEGATIVE with confidence 0.8. -/
theorem derive_negative_rule_witness :
    deriveThreeClass (65/100) (65/100) [⟨"SAD", 8/10⟩, ⟨"HAPPY", 2/10⟩] =
      some (Category.NEGATIVE, 8/10) := by
  have hpn : posNegProbs ⟨"SAD", (8:ℚ)/10⟩ ⟨"HAPPY", (2:ℚ)/10⟩ = (2/10, 8/10) := by
    simp [posNegProbs, show isPositiveLabel (upperStr "SAD") = false from by decide]
  have h := derive_negative_rule (65/100) (65/100) ⟨"SAD", 8/10⟩ ⟨"HAPPY", 2/10⟩
    (by rw [hpn]; norm_num) (by rw [hpn]; norm_num) (by rw [hpn]; norm_num)
  rw [h, hpn]

/-- C3: for every two-entry classifier output on which neither the POSITIVE
rule nor the NEGATIVE rule fires, the decision is NEUTRAL with confidence
`max posProb negProb`. -/
theorem derive_neutral_rule (pt nt : ℚ) (s0 s1 : ScoreEntry)
    (hnp : ¬(pt ≤ (posNegProbs s0 s1).1 ∧ (posNegProbs s0 s1).2 ≤ (posNegProbs s0 s1).1))
    (hnn : ¬(nt ≤ (posNegProbs s0 s1).2 ∧ (posNegProbs s0 s1).1 < (posNegProbs s0 s1).2)) :
    deriveThreeClass pt nt [s0, s1] =
      some (Category.NEUTRAL, max (posNegProbs s0 s1).1 (posNegProbs s0 s1).2) := by
  rw [deriveThreeClass_cons_cons, if_neg hnp]
  exact if_neg hnn

/-- Witness for C3 at the spec's concrete scenario
`[("HAPPY", 0.5), ("SAD", 0.5)]` with the default thresholds 0.65: neither
class clears its bar, so the result is NEUTRAL with confidence 0.5. -/
theorem derive_neutral_rule_witness :
    deriveThreeClass (65/100) (65/100) [⟨"HAPPY", 1/2⟩, ⟨"SAD", 1/2⟩] =
      some (Category.NEUTRAL, 1/2) := by
  have hpn : posNegProbs ⟨"HAPPY", (1:ℚ)/2⟩ ⟨"SAD", (1:ℚ)/2⟩ = (1/2, 1/2) := by
    simp [posNegProbs, show isPositiveLabel (upperStr "HAPPY") = true from by decide]
  have h := derive_neutral_rule (65/100) (65/100) ⟨"HAPPY", 1/2⟩ ⟨"SAD", 1/2⟩
    (by rw [hpn]; norm_num) (by rw [hpn]; norm_num)
  rw [h, hpn]; norm_num

/-- C7: on a classifier output with fewer than two entries (i.e. a single
entry, the empty case being the error of C10), `deriveThreeClass` returns the
maximal entry mapped through `mapLabelToCategory` with its own probability;
in particular `[("HAPPY", 0.99)]` yields POSITIVE with confidence 0.99 via
the label-mapping sub-rule. -/
theorem derive_single_entry_fallback (pt nt : ℚ) (e : ScoreEntry) :
    deriveThreeClass pt nt [e] = some (mapLabelToCategory e.label, e.score) ∧
    deriveThreeClass pt nt [⟨"HAPPY", 99/100⟩] = some (Category.POSITIVE, 99/100) := by
  refine ⟨deriveThreeClass_singleton pt nt e, ?_⟩
  rw [deriveThreeClass_singleton]
  simp [show mapLabelToCategory "HAPPY" = Category.POSITIVE from by decide]

/-- C8: `mapRawLabelToCategory` is case-insensitive keyword matching on the
uppercased label: POSITIVE exactly when it contains `"HAPPY"` or `"POS"`,
NEGATIVE exactly when it contains `"SAD"` or `"NEG"` (and no positive
keyword, the positive check coming first), NEUTRAL exactly when it contains
none of the keywords. -/
theorem mapLabel_keyword_characterization (label : String) :
    (mapLabelToCategory label = Category.POSITIVE ↔
      (containsSub (upperStr label) "HAPPY" = true ∨ containsSub (upperStr label) "POS" = true)) ∧
    (mapLabelToCategory label = Category.NEGATIVE ↔
      ((containsSub (upperStr label) "SAD" = true ∨ containsSub (upperStr label) "NEG" = true) ∧
        ¬(containsSub (upperStr label) "HAPPY" = true ∨ containsSub (upperStr label) "POS" = true))) ∧
    (mapLabelToCategory label = Category.NEUTRAL ↔
      (¬(containsSub (upperStr label) "HAPPY" = true ∨ containsSub (upperStr label) "POS" = true) ∧
        ¬(containsSub (upperStr label) "SAD" = true ∨ containsSub (upperStr label) "NEG" = true))) := by
  unfold mapLabelToCategory isPositiveLabel isNegativeLabel
  cases h1 : containsSub (upperStr label) "HAPPY" <;>
    cases h2 : containsSub (upperStr label) "POS" <;>
      cases h3 : containsSub (upperStr label) "SAD" <;>
        cases h4 : containsSub (upperStr label) "NEG" <;>
          simp [h1, h2, h3, h4]

/-- C9: on every classifier output with at least two entries, the confidence
reported by `deriveThreeClass` is `max p0 p1`, the larger of the first two
probabilities, in every branch of the decision. -/
theorem derive_confidence_is_max (pt nt : ℚ) (s0 s1 : ScoreEntry) (rest : List ScoreEntry) :
    (deriveThreeClass pt nt (s0 :: s1 :: rest)).map Prod.snd =
      some (max s0.score s1.score) := by
  have hmax : max (posNegProbs s0 s1).1 (posNegProbs s0 s1).2 = max s0.score s1.score := by
    unfold posNegProbs
    split <;> simp [max_comm]
  rw [deriveThreeClass_cons_cons]
  split_ifs with h1 h2
  · simp [← hmax, max_eq_left h1.2]
  · simp [← hmax, max_eq_right (le_of_lt h2.2)]
  · simp [hmax]

/-- C10: under the precondition that the score sequence is non-empty,
`deriveThreeClass` is total (always returns a label/confidence pair); on the
empty sequence it fails — the maximum of an empty sequence — so length ≥ 1
is a genuine precondition. -/
theorem derive_total_iff_nonempty (pt nt : ℚ) :
    (∀ scores : List ScoreEntry, scores ≠ [] →
      (deriveThreeClass pt nt scores).isSome = true) ∧
    deriveThreeClass pt nt [] = none := by
  exact ⟨fun scores h => deriveThreeClass_isSome pt nt scores h, rfl⟩

/-- Witness for C10: the non-emptiness hypothesis discharged at the
concrete one-entry input `[("HAPPY", 0.9)]`. -/
theorem derive_total_iff_nonempty_witness :
    ([⟨"HAPPY", (9:ℚ)/10⟩] ≠ ([] : List ScoreEntry)) ∧
    (deriveThreeClass (65/100) (65/100) [⟨"HAPPY", 9/10⟩]).isSome = true :=
  ⟨by simp, (derive_total_iff_nonempty (65/100) (65/100)).1 [⟨"HAPPY", 9/10⟩] (by simp)⟩

/-- C4: `predict` rejects empty and whitespace-only input with the
invalid-input error uniformly in the classifier — the outcome is fixed
before (and independently of) any classifier invocation or lazy model
initialization — and on input with non-whitespace content it never returns
that error. -/
theorem predict_empty_input (pt nt : ℚ) (text : String) :
    (stripEmpty text = true →
      ∀ classifier : String → List ScoreEntry,
        predict classifier pt nt text = Except.error PredictError.invalidInput) ∧
    (stripEmpty text = false →
      ∀ classifier : String → List ScoreEntry,
        predict classifier pt nt text ≠ Except.error PredictError.invalidInput) := by
  constructor
  · intro hblank classifier
    unfold predict
    exact if_pos (Or.inr hblank)
  · intro hcontent classifier
    unfold predict
    rw [if_neg]
    · cases deriveThreeClass pt nt (classifier text) with
      | none => simp
      | some r => simp
    · rintro (hempty | hblank)
      · rw [hempty] at hcontent
        exact absurd hcontent (by decide)
      · rw [hblank] at hcontent
        exact absurd hcontent (by decide)

/-- Witness for C4: the spec's two failing inputs `""` and `"   "` reject
with the invalid-input error under the sample classifier, and the
non-blank input `"hello"` does not. -/
theorem predict_empty_input_witness :
    (stripEmpty "" = true ∧
      predict sampleClassifier (65/100) (65/100) "" = Except.error PredictError.invalidInput) ∧
    (stripEmpty "   " = true ∧
      predict sampleClassifier (65/100) (65/100) "   " = Except.error PredictError.invalidInput) ∧
    (stripEmpty "hello" = false ∧
      predict sampleClassifier (65/100) (65/100) "hello" ≠ Except.error PredictError.invalidInput) :=
  ⟨⟨by decide, (predict_empty_input (65/100) (65/100) "").1 (by decide) sampleClassifier⟩,
   ⟨by decide, (predict_empty_input (65/100) (65/100) "   ").1 (by decide) sampleClassifier⟩,
   ⟨by decide, (predict_empty_input (65/100) (65/100) "hello").2 (by decide) sampleClassifier⟩⟩

/-! ### Batch-processing lemmas -/

theorem chunkList_nil (bs : Nat) : chunkList bs ([] : List α) = [] := by
  rw [chunkList]
  simp

theorem chunkList_cons (bs : Nat) (l : List α) (hbs : bs ≠ 0) (hl : l ≠ []) :
    chunkList bs l = l.take bs :: chunkList bs (l.drop bs) := by
  rw [chunkList]
  rw [dif_neg]
  simp [List.length_eq_zero, hbs, hl]

/-- Running the derivation loop over the pipeline outputs of a chunk is the
same as the per-text sequential processing of that chunk. -/
theorem processOutputs_map (g : String → List ScoreEntry) (pt nt : ℚ) (l : List String) :
    processOutputs pt nt (l.map g) = predictAll g pt nt l := by
  induction l with
  | nil => rfl
  | cons t ts ih =>
    simp only [List.map_cons, processOutputs, predictAll, ih]

/-- Sequential per-item processing distributes over list concatenation,
with the error of the first failing item propagating. -/
theorem predictAll_append (g : String → List ScoreEntry) (pt nt : ℚ) (l1 l2 : List String) :
    predictAll g pt nt (l1 ++ l2) =
      match predictAll g pt nt l1 with
      | Except.error e => Except.error e
      | Except.ok r1 =>
        match predictAll g pt nt l2 with
        | Except.error e => Except.error e
        | Except.ok r2 => Except.ok (r1 ++ r2) := by
  induction l1 with
  | nil =>
    cases h : predictAll g pt nt l2 <;> simp [predictAll, h]
  | cons t ts ih =>
    cases h1 : deriveItem pt nt (g t) with
    | error e => simp [predictAll, h1]
    | ok r =>
      cases h2 : predictAll g pt nt ts with
      | error e => simp [predictAll, h1, ih, h2]
      | ok r2 =>
        cases h3 : predictAll g pt nt l2 with
        | error e => simp [predictAll, h1, ih, h2, h3]
        | ok r3 => simp [predictAll, h1, ih, h2, h3]

/-- The chunked processing of `batch_predict` computes exactly the
sequential per-item processing of the whole list, for every chunk size ≥ 1:
chunking is invisible in the result. -/
theorem processChunks_chunkList (g : String → List ScoreEntry) (pt nt : ℚ)
    (bs : Nat) (hbs : bs ≠ 0) :
    ∀ (n : Nat) (l : List String), l.length ≤ n →
      processChunks g pt nt (chunkList bs l) = predictAll g pt nt l := by
  intro n
  induction n with
  | zero =>
    intro l hl
    have hnil : l = [] := List.length_eq_zero.mp (Nat.le_zero.mp hl)
    subst hnil
    rw [chunkList_nil]
    rfl
  | succ n ih =>
    intro l hl
    by_cases hnil : l = []
    · subst hnil
      rw [chunkList_nil]
      rfl
    · rw [chunkList_cons bs l hbs hnil]
      have hlen : (l.drop bs).length ≤ n := by
        have hpos : 0 < l.length := List.length_pos.mpr hnil
        simp only [List.length_drop]
        omega
      calc processChunks g pt nt (l.take bs :: chunkList bs (l.drop bs))
          = match processOutputs pt nt ((l.take bs).map g) with
            | Except.error e => Except.error e
            | Except.ok rs =>
              match processChunks g pt nt (chunkList bs (l.drop bs)) with
              | Except.error e => Except.error e
              | Except.ok more => Except.ok (rs ++ more) := rfl
        _ = predictAll g pt nt l := by
            rw [processOutputs_map, ih (l.drop bs) hlen]
            rw [show predictAll g pt nt l
                  = predictAll g pt nt (l.take bs ++ l.drop bs) from by
                rw [List.take_append_drop]]
            rw [predictAll_append]

/-- Concatenating the chunks gives back the original list: the chunking
partitions the list preserving relative order. -/
theorem chunkList_join (bs : Nat) (hbs : bs ≠ 0) :
    ∀ (n : Nat) (l : List α), l.length ≤ n → (chunkList bs l).flatten = l := by
  intro n
  induction n with
  | zero =>
    intro l hl
    have hnil : l = [] := List.length_eq_zero.mp (Nat.le_zero.mp hl)
    subst hnil
    rw [chunkList_nil]
    rfl
  | succ n ih =>
    intro l hl
    by_cases hnil : l = []
    · subst hnil
      rw [chunkList_nil]
      rfl
    · rw [chunkList_cons bs l hbs hnil]
      have hlen : (l.drop bs).length ≤ n := by
        have hpos : 0 < l.length := List.length_pos.mpr hnil
        simp only [List.length_drop]
        omega
      simp only [List.flatten_cons, ih (l.drop bs) hlen, List.take_append_drop]

/-- Every chunk produced by the chunking has at most `bs` elements. -/
theorem chunkList_length_le (bs : Nat) (hbs : bs ≠ 0) :
    ∀ (n : Nat) (l : List α), l.length ≤ n →
      ∀ c ∈ chunkList bs l, c.length ≤ bs := by
  intro n
  induction n with
  | zero =>
    intro l hl c hc
    have hnil : l = [] := List.length_eq_zero.mp (Nat.le_zero.mp hl)
    subst hnil
    rw [chunkList_nil] at hc
    cases hc
  | succ n ih =>
    intro l hl c hc
    by_cases hnil : l = []
    · subst hnil
      rw [chunkList_nil] at hc
      cases hc
    · rw [chunkList_cons bs l hbs hnil] at hc
      have hlen : (l.drop bs).length ≤ n := by
        have hpos : 0 < l.length := List.length_pos.mpr hnil
        simp only [List.length_drop]
        omega
      cases hc with
      | head => simp [List.length_take]
      | tail _ hmem => exact ih (l.drop bs) hlen c hmem

/-- On a non-empty filtered input and a positive chunk size, `batchPredict`
is the sequential per-item processing of the filtered list. -/
theorem batchPredict_eq_predictAll (g : String → List ScoreEntry) (pt nt : ℚ)
    (texts : List String) (bs : Nat) (hbs : 1 ≤ bs) (hne : cleanTexts texts ≠ []) :
    batchPredict g pt nt texts bs = predictAll g pt nt (cleanTexts texts) := by
  unfold batchPredict
  rw [if_neg hne]
  exact processChunks_chunkList g pt nt bs (by omega) (cleanTexts texts).length
    (cleanTexts texts) le_rfl

/-- When the classifier returns a non-empty score list for every text of
`l`, sequential processing succeeds with one result per text. -/
theorem predictAll_ok_of_nonempty (g : String → List ScoreEntry) (pt nt : ℚ)
    (l : List String) (h : ∀ t ∈ l, g t ≠ []) :
    ∃ rs, predictAll g pt nt l = Except.ok rs ∧ rs.length = l.length := by
  induction l with
  | nil => exact ⟨[], rfl, rfl⟩
  | cons t ts ih =>
    obtain ⟨rs, hrs, hlen⟩ := ih (fun x hx => h x (List.mem_cons_of_mem _ hx))
    have hsome := deriveThreeClass_isSome pt nt (g t) (h t (List.mem_cons_self _ _))
    obtain ⟨r, hr⟩ := Option.isSome_iff_exists.mp hsome
    exact ⟨r :: rs, by simp [predictAll, deriveItem, hr, hrs], by simp [hlen]⟩

/-- Successful sequential processing is exactly the pointwise relation:
same length, and the i-th result is the derivation of the i-th text's
classifier output. -/
theorem predictAll_ok_forall2 (g : String → List ScoreEntry) (pt nt : ℚ) :
    ∀ (l : List String) (rs : List (Category × ℚ)),
      predictAll g pt nt l = Except.ok rs ↔
        List.Forall₂ (fun t r => deriveItem pt nt (g t) = Except.ok r) l rs := by
  intro l
  induction l with
  | nil =>
    intro rs
    constructor
    · intro h
      have : rs = [] := by
        have h' : Except.ok ([] : List (Category × ℚ)) = Except.ok rs := h
        exact (Except.ok.inj h').symm
      subst this
      exact List.Forall₂.nil
    · intro h
      cases h
      rfl
  | cons t ts ih =>
    intro rs
    constructor
    · intro h
      rw [show predictAll g pt nt (t :: ts)
            = match deriveItem pt nt (g t) with
              | Except.error e => Except.error e
              | Except.ok r =>
                match predictAll g pt nt ts with
                | Except.error e => Except.error e
                | Except.ok rs0 => Except.ok (r :: rs0) from rfl] at h
      cases h1 : deriveItem pt nt (g t) with
      | error e => rw [h1] at h; cases h
      | ok r =>
        rw [h1] at h
        cases h2 : predictAll g pt nt ts with
        | error e => rw [h2] at h; cases h
        | ok rs2 =>
          rw [h2] at h
          have : r :: rs2 = rs := Except.ok.inj h
          subst this
          exact List.Forall₂.cons h1 ((ih rs2).mp h2)
    · intro h
      cases h with
      | cons hr hrest =>
        simp [predictAll, hr, (ih _).mpr hrest]

/-- C5: `batchPredict` filters out empty and whitespace-only texts; it
fails with the invalid-input error exactly when the filtered list is empty,
and otherwise (with the classifier honouring the port contract of returning
a non-empty score list per text) succeeds with exactly one result per
surviving text. -/
theorem batch_filter_validation (g : String → List ScoreEntry) (pt nt : ℚ)
    (texts : List String) (bs : Nat) (hbs : 1 ≤ bs) (hcls : ∀ t, g t ≠ []) :
    (batchPredict g pt nt texts bs = Except.error PredictError.invalidInput ↔
      cleanTexts texts = []) ∧
    (cleanTexts texts ≠ [] →
      ∃ rs, batchPredict g pt nt texts bs = Except.ok rs ∧
        rs.length = (cleanTexts texts).length) := by
  have hok : cleanTexts texts ≠ [] →
      ∃ rs, batchPredict g pt nt texts bs = Except.ok rs ∧
        rs.length = (cleanTexts texts).length := by
    intro hne
    rw [batchPredict_eq_predictAll g pt nt texts bs hbs hne]
    exact predictAll_ok_of_nonempty g pt nt (cleanTexts texts) (fun t _ => hcls t)
  refine ⟨⟨?_, ?_⟩, hok⟩
  · intro herr
    by_contra hne
    obtain ⟨rs, hrs, -⟩ := hok hne
    rw [hrs] at herr
    cases herr
  · intro hcl
    unfold batchPredict
    rw [if_pos hcl]

/-- Witness for C5 at the spec's concrete scenarios: `["", "valid text"]`
does not fail the validation (one valid text survives the filter) while
`["", "  "]` fails with the invalid-input error. -/
theorem batch_filter_validation_witness :
    batchPredict sampleClassifier (65/100) (65/100) ["", "valid text"] 32 ≠
      Except.error PredictError.invalidInput ∧
    batchPredict sampleClassifier (65/100) (65/100) ["", "  "] 32 =
      Except.error PredictError.invalidInput := by
  constructor
  · intro h
    have hcl := (batch_filter_validation sampleClassifier (65/100) (65/100) ["", "valid text"] 32
      (by decide) (fun t => by simp [sampleClassifier])).1.mp h
    exact absurd hcl (by decide)
  · exact (batch_filter_validation sampleClassifier (65/100) (65/100) ["", "  "] 32
      (by decide) (fun t => by simp [sampleClassifier])).1.mpr (by decide)

/-- C6: for every positive chunk size, `batchPredict` equals the sequential
per-item processing of the filtered list — chunking does not affect the
result — and every successful output is pointwise: it has one result per
valid text, in the same relative order, the i-th result derived from the
i-th valid text's classifier output. -/
theorem batch_order_preservation (g : String → List ScoreEntry) (pt nt : ℚ)
    (texts : List String) (bs : Nat) (hbs : 1 ≤ bs) (hne : cleanTexts texts ≠ []) :
    (chunkList bs (cleanTexts texts)).flatten = cleanTexts texts ∧
    (∀ c ∈ chunkList bs (cleanTexts texts), c.length ≤ bs) ∧
    batchPredict g pt nt texts bs = predictAll g pt nt (cleanTexts texts) ∧
    ∀ rs, batchPredict g pt nt texts bs = Except.ok rs →
      List.Forall₂ (fun t r => deriveItem pt nt (g t) = Except.ok r)
        (cleanTexts texts) rs := by
  have heq := batchPredict_eq_predictAll g pt nt texts bs hbs hne
  refine ⟨?_, ?_, heq, fun rs hok => ?_⟩
  · exact chunkList_join bs (by omega) (cleanTexts texts).length (cleanTexts texts) le_rfl
  · exact chunkList_length_le bs (by omega) (cleanTexts texts).length (cleanTexts texts) le_rfl
  · rw [heq] at hok
    exact (predictAll_ok_forall2 g pt nt (cleanTexts texts) rs).mp hok

/-- Witness for C6: three valid texts with chunk size 2 (so the chunking is
`["a", "b"], ["c"]`) produce the same results as unchunked sequential
processing. -/
theorem batch_order_preservation_witness :
    batchPredict sampleClassifier (65/100) (65/100) ["a", "b", "c"] 2 =
      predictAll sampleClassifier (65/100) (65/100) (cleanTexts ["a", "b", "c"]) :=
  (batch_order_preservation sampleClassifier (65/100) (65/100) ["a", "b", "c"] 2
    (by decide) (by decide)).2.2.1

end SentimentSpec
